import Mathlib

set_option autoImplicit false

/-!
Shallow embedding of the `editor` repository (src/main.rs, src/editor/mod.rs,
src/editor/buffer.rs) and proofs about its specification claims.

The document text is a `ropey::Rope`, modelled as a `List Char` (ropey measures
text in chars / Unicode scalar values).  Ropey's line decomposition is modelled
with lines split after every `'\n'`; a CRLF pair `"\r\n"` thus sits at the end
of its line, exactly as the CRLF-normalization loop in `Buffer::from_path`
relies on.  Rust `usize` arithmetic appears only in places proved (or assumed
via hypotheses) not to underflow; `Nat` subtraction is used in the model.
-/

namespace TextEditor

/-- Document text: a sequence of Unicode scalar values, as stored by the rope. -/
abbrev Text := List Char

/-- Ropey's line decomposition: a line ends just after each `'\n'`; the final
segment (possibly empty) has no terminator.  `lineSegs t` always has at least
one element, and `(lineSegs t).length = rope.len_lines()`. -/
def lineSegs : Text → List Text
  | [] => [[]]
  | c :: rest =>
    if c = '\n' then [c] :: lineSegs rest
    else
      match lineSegs rest with
      | [] => [[c]]
      | l :: ls => (c :: l) :: ls

/-- Rope `len_lines()`: number of lines in the decomposition. -/
def len_lines (t : Text) : Nat := (lineSegs t).length

/-- Rope `line_to_char(i)`: character offset at which line `i` begins
(the total length of the lines before it). -/
def line_to_char (t : Text) (i : Nat) : Nat :=
  (((lineSegs t).take i).map List.length).sum

/-- Rope `char_to_line(i)`: index of the line containing character offset `i`
(equal to the number of `'\n'` characters strictly before offset `i`;
for `i = len_chars` this is the final line's index). -/
def char_to_line (t : Text) (i : Nat) : Nat := (t.take i).count '\n'

/-- Rope `line(i)` as a char sequence (trailing `'\n'` included, as in ropey). -/
def get_line (t : Text) (i : Nat) : Text := (lineSegs t).getD i []

/-- Rope `insert(i, s)`. -/
def insertAt (t : Text) (i : Nat) (s : Text) : Text := t.take i ++ s ++ t.drop i

/-- Rope `remove(a..b)`. -/
def removeRange (t : Text) (a b : Nat) : Text := t.take a ++ t.drop b

/-- Number of bytes in the UTF-8 encoding of one scalar value (the sizes used
by Rust `char::encode_utf8` / `String::len`). -/
def charUtf8Size (c : Char) : Nat :=
  if c.toNat < 0x80 then 1
  else if c.toNat < 0x800 then 2
  else if c.toNat < 0x10000 then 3
  else 4

/-- Rust `String::len()` of a char sequence: total UTF-8 byte length. -/
def utf8Len (l : Text) : Nat := (l.map charUtf8Size).sum

/-- UTF-8 encoding of one scalar value as bytes (arithmetic form of the
standard encoding, as produced by Rust `String::as_bytes`). -/
def utf8Bytes (c : Char) : List Nat :=
  let n := c.toNat
  if n < 0x80 then [n]
  else if n < 0x800 then [0xC0 + n / 0x40, 0x80 + n % 0x40]
  else if n < 0x10000 then
    [0xE0 + n / 0x1000, 0x80 + (n / 0x40) % 0x40, 0x80 + n % 0x40]
  else
    [0xF0 + n / 0x40000, 0x80 + (n / 0x1000) % 0x40,
     0x80 + (n / 0x40) % 0x40, 0x80 + n % 0x40]

/-- UTF-8 encoding of a char sequence (the bytes Rust writes for a `String`). -/
def utf8Encode (s : Text) : List Nat := (s.map utf8Bytes).flatten

/-- The `Buffer` struct of src/editor/buffer.rs (lines 12-35).  `file_path` is
kept as a plain string; `text` is the rope. -/
structure Buffer where
  file_path : String
  text : Text
  visual_width : Nat
  visual_height : Nat
  visual_origin_row : Nat
  visual_origin_col : Nat
  cursor_idx : Nat
deriving DecidableEq

/-- Rope `len_chars()` through the buffer (buffer.rs lines 279-281). -/
def Buffer.len_chars (b : Buffer) : Nat := b.text.length

/-- Buffer::get_logical_cursor_line (buffer.rs lines 239-241). -/
def Buffer.get_logical_cursor_line (b : Buffer) : Nat :=
  char_to_line b.text b.cursor_idx

/-- Buffer::get_logical_cursor_col (buffer.rs lines 244-246). -/
def Buffer.get_logical_cursor_col (b : Buffer) : Nat :=
  b.cursor_idx - line_to_char b.text b.get_logical_cursor_line

/-- Buffer::get_logical_cursor_pos (buffer.rs lines 231-236). -/
def Buffer.get_logical_cursor_pos (b : Buffer) : Nat × Nat :=
  (b.get_logical_cursor_line, b.get_logical_cursor_col)

/-- Buffer::get_line (buffer.rs lines 284-286): the line's text as a string. -/
def Buffer.get_line (b : Buffer) (idx : Nat) : Text := TextEditor.get_line b.text idx

/-- Buffer::move_right (buffer.rs lines 119-123). -/
def Buffer.move_right (b : Buffer) : Buffer :=
  if b.cursor_idx < b.len_chars then { b with cursor_idx := b.cursor_idx + 1 }
  else b

/-- Buffer::move_left (buffer.rs lines 126-130). -/
def Buffer.move_left (b : Buffer) : Buffer :=
  if b.cursor_idx > 0 then { b with cursor_idx := b.cursor_idx - 1 } else b

/-- Buffer::move_up (buffer.rs lines 133-149).  Note the clamp is
`min next_line_len col` with `next_line_len` counting the trailing `'\n'`. -/
def Buffer.move_up (b : Buffer) : Buffer :=
  let cursor_line := b.get_logical_cursor_line
  if cursor_line = 0 then { b with cursor_idx := 0 }
  else
    let next_line_idx := cursor_line - 1
    let next_line_char_idx := line_to_char b.text next_line_idx
    let next_line_len := (TextEditor.get_line b.text next_line_idx).length
    if next_line_len ≤ 1 ∨ b.get_logical_cursor_col = 0 then
      { b with cursor_idx := next_line_char_idx }
    else
      { b with cursor_idx :=
          next_line_char_idx + min next_line_len b.get_logical_cursor_col }

/-- Buffer::move_down (buffer.rs lines 152-168). -/
def Buffer.move_down (b : Buffer) : Buffer :=
  let cursor_line := b.get_logical_cursor_line
  if cursor_line = len_lines b.text - 1 then
    { b with cursor_idx := b.text.length }
  else
    let next_line_idx := cursor_line + 1
    let next_line_char_idx := line_to_char b.text next_line_idx
    let next_line_len := (TextEditor.get_line b.text next_line_idx).length
    if next_line_len ≤ 1 ∨ b.get_logical_cursor_col = 0 then
      { b with cursor_idx := next_line_char_idx }
    else
      { b with cursor_idx :=
          next_line_char_idx + min next_line_len b.get_logical_cursor_col }

/-- Key codes relevant to Buffer::handle_key_event / Editor dispatch. -/
inductive KeyCode where
  | right
  | left
  | up
  | down
  | home
  | endKey
  | char (c : Char)
  | enter
  | backspace
  | tab
  | delete
  | esc
  | other
deriving DecidableEq

/-- A key event: its code, whether the CONTROL modifier is held, and whether
the event kind is Press. -/
structure KeyEvent where
  code : KeyCode
  ctrl : Bool
  press : Bool
deriving DecidableEq

/-- Buffer::handle_key_event (buffer.rs lines 170-228).  `current_line_idx` is
read before dispatch, as in the source; the End branch measures the line with
Rust `String::len()`, i.e. UTF-8 bytes (`utf8Len`), not chars. -/
def Buffer.handle_key_event (b : Buffer) (ev : KeyEvent) : Buffer :=
  let current_line_idx := b.get_logical_cursor_pos.1
  if ev.press then
    match ev.code with
    | .right => b.move_right
    | .left => b.move_left
    | .up => b.move_up
    | .down => b.move_down
    | .home =>
      if ev.ctrl then { b with cursor_idx := 0 }
      else { b with cursor_idx := line_to_char b.text current_line_idx }
    | .endKey =>
      if ev.ctrl then { b with cursor_idx := b.len_chars }
      else
        let current_line_len := utf8Len (b.get_line current_line_idx)
        let current_line_char_idx := line_to_char b.text current_line_idx
        { b with cursor_idx :=
            current_line_char_idx + current_line_len - min current_line_len 1 }
    | .char c =>
      { b with text := insertAt b.text b.cursor_idx [c],
               cursor_idx := b.cursor_idx + 1 }
    | .enter =>
      { b with text := insertAt b.text b.cursor_idx ['\n'],
               cursor_idx := b.cursor_idx + 1 }
    | .backspace =>
      if b.cursor_idx ≠ 0 then
        { b with text := removeRange b.text (b.cursor_idx - 1) b.cursor_idx,
                 cursor_idx := b.cursor_idx - 1 }
      else b
    | .tab =>
      { b with text := insertAt b.text b.cursor_idx ['\t'],
               cursor_idx := b.cursor_idx + 1 }
    | .delete =>
      if b.cursor_idx ≠ b.text.length then
        { b with text := removeRange b.text b.cursor_idx (b.cursor_idx + 1) }
      else b
    | _ => b
  else b

/-- The per-line CRLF fix of Buffer::from_path (buffer.rs lines 72-83): if the
line's last two chars are `'\r', '\n'`, remove the `'\r'` (the rope removal
`line_start+len-2 .. line_start+len-1` restricted to this line). -/
def fix_line (l : Text) : Text :=
  if 2 ≤ l.length ∧ l.getD (l.length - 2) ' ' = '\r'
      ∧ l.getD (l.length - 1) ' ' = '\n' then
    l.take (l.length - 2) ++ l.drop (l.length - 1)
  else l

/-- The CRLF-normalization pass of Buffer::from_path (buffer.rs lines 70-85).
The source walks line indices `0 .. len_lines` over the rope and removes the
`'\r'` of a trailing `"\r\n"`; each removal is local to its own line (it
changes no `'\n'`, so the line count and all other lines' contents are
unchanged), so the loop equals fixing every line segment independently. -/
def normalize_crlf (s : Text) : Text := ((lineSegs s).map fix_line).flatten

/-- Kind of an I/O error, as distinguished by Buffer::from_path. -/
inductive IOErrorKind where
  | notFound
  | other
deriving DecidableEq

/-- Result of reading the file in Buffer::from_path.  `success` carries the
already-decoded char sequence: the byte decode itself (strict UTF-8, else
UTF-16LE after a `0xFF 0xFE` BOM, else lossy UTF-8) is the standard library's
and is related to bytes through `utf8Encode` in the round-trip theorems. -/
inductive ReadResult where
  | success (contents : Text)
  | failure (k : IOErrorKind)
deriving DecidableEq

/-- Buffer construction after a successful read and decode (buffer.rs lines
68-95): CRLF normalization, then the field initialisation of `from_path`. -/
def from_path_contents (cols rows : Nat) (path : String) (contents : Text) :
    Buffer :=
  { file_path := path
    text := normalize_crlf contents
    visual_width := cols
    visual_height := rows
    visual_origin_row := 0
    visual_origin_col := 0
    cursor_idx := 0 }

/-- Buffer::from_path (buffer.rs lines 42-96): a missing file yields an empty
document (`Vec::new()` decodes to the empty string); any other read error is
returned as `Err`. -/
def Buffer.from_path (cols rows : Nat) (path : String) (r : ReadResult) :
    Except IOErrorKind Buffer :=
  match r with
  | .failure .notFound => .ok (from_path_contents cols rows path [])
  | .failure k => .error k
  | .success contents => .ok (from_path_contents cols rows path contents)

/-- Buffer::save_file (buffer.rs lines 99-104): writes the UTF-8 bytes of
`text.to_string()` verbatim.  The source calls `.unwrap()` on `File::create`
and on `write_all`, so an unwritable target is a panic; that is modelled as
`none` (no recoverable result is produced, and no buffer field is touched). -/
def Buffer.save_file (b : Buffer) (writable : Bool) : Option (List Nat) :=
  if writable then some (utf8Encode b.text) else none

/-- Spec-side definition for claim C6, from the claim's words: the content
with every `"\r\n"` reduced to `"\n"` (single left-to-right pass). -/
def reduceCRLF : Text → Text
  | '\r' :: '\n' :: rest => '\n' :: reduceCRLF rest
  | c :: rest => c :: reduceCRLF rest
  | [] => []

/-- Editor::align_cursor (mod.rs lines 284-320).  `rows` is the terminal row
count returned by `size()`; the four corrections run in order, each reading
the state left by the previous one. -/
def Editor.align_cursor (rows : Nat) (b : Buffer) : Buffer :=
  if rows < 3 then b
  else
    let line_idx := char_to_line b.text b.cursor_idx
    let col_idx := b.cursor_idx - line_to_char b.text line_idx
    let b1 :=
      if line_idx < b.visual_origin_row then
        { b with visual_origin_row := line_idx }
      else b
    let b2 :=
      if line_idx ≥ b1.visual_origin_row + b1.visual_height - 2 then
        { b1 with visual_origin_row := line_idx - (b1.visual_height - 3) }
      else b1
    let b3 :=
      if col_idx < b2.visual_origin_col then
        { b2 with visual_origin_col := col_idx }
      else b2
    if col_idx ≥ b3.visual_origin_col + b3.visual_width then
      { b3 with visual_origin_col := col_idx - b3.visual_width + 1 }
    else b3

/-- Editor::attempt_exit (mod.rs lines 191-210).  `dirty_buffer` is the flag
the source reads from the buffer; `response` is what `editor_prompt` would
return (`none` = cancelled).  The first component records whether the
confirmation prompt was invoked (the prompt call occurs exactly in the dirty
branch); the second is the return value (`true` = quit). -/
def Editor.attempt_exit (dirty_buffer : Bool) (response : Option String) :
    Bool × Bool :=
  if dirty_buffer then
    match response with
    | some s => (true, s == "y" || s == "Y" || s == "yes")
    | none => (true, false)
  else (false, true)

/-- Modelled from the spec: the `dirty_buffer` flag of the buffer.  The field
is read by Editor::attempt_exit (mod.rs line 192) but absent from the Buffer
struct in src/editor/buffer.rs; per spec §4.1, every edit operation sets
`dirty = true` (no-op backspace/delete perform no edit), and navigation keys
leave it unchanged.  This gives the flag's value after one key event. -/
def dirty_after_key (dirty_buffer : Bool) (b : Buffer) (ev : KeyEvent) : Bool :=
  dirty_buffer ||
    (ev.press &&
      match ev.code with
      | .char _ => true
      | .enter => true
      | .tab => true
      | .backspace => b.cursor_idx != 0
      | .delete => b.cursor_idx != b.text.length
      | _ => false)

/-- Whether `needle` occurs in `t` as an exact substring starting at offset
`i` (an occurrence lies entirely inside `t`). -/
def matchesAt (t needle : Text) (i : Nat) : Bool :=
  needle == (t.drop i).take needle.length

/-- Linear scan for the first occurrence of `needle` at offset `i` or later,
with enough fuel to cover the remaining offsets. -/
def scan_from (t needle : Text) : Nat → Nat → Option Nat
  | _, 0 => none
  | i, fuel + 1 =>
    if matchesAt t needle i then some i else scan_from t needle (i + 1) fuel

/-- First occurrence of `needle` at offset `j` or later (offsets up to
`t.length` are candidates; an empty needle matches anywhere). -/
def find_from (t needle : Text) (j : Nat) : Option Nat :=
  scan_from t needle j (t.length + 1 - j)

/-- Modelled from the spec: `Buffer::go_to_next_instance` is called by
Editor::handle_key_event (mod.rs lines 233 and 247) but absent from
src/editor/buffer.rs.  Spec §4.1 Search: scan forward from the character
after the current cursor for the first occurrence of `needle` (exact
substring match); on success move the cursor to the start of the match and
return found; on failure leave the cursor unchanged and return not-found. -/
def Buffer.go_to_next_instance (b : Buffer) (needle : Text) : Buffer × Bool :=
  match find_from b.text needle (b.cursor_idx + 1) with
  | some i => ({ b with cursor_idx := i }, true)
  | none => (b, false)

/-- Outcome of program startup in main.rs. -/
inductive StartupOutcome where
  | usageExit (code : Nat)
  | readErrorExit (code : Nat)
  | session (filename : String) (contents : Text)
deriving DecidableEq

/-- The startup logic of main (main.rs lines 28-50): exactly two argv entries
(program name plus one filename) are required, else usage message and
`exit(1)`; then `fs::read_to_string`, any error printing an error and
`exit(1)`; only then is the terminal session (alternate screen, raw mode)
entered.  `readFile` gives the read result per filename; `success` carries
the decoded contents. -/
def mainStartup (args : List String) (readFile : String → ReadResult) :
    StartupOutcome :=
  if args.length ≠ 2 then .usageExit 1
  else
    match readFile (args.getD 1 "") with
    | .success s => .session (args.getD 1 "") s
    | .failure _ => .readErrorExit 1

/-! Concrete states used by the witnesses and counterexamples. -/

/-- Small buffer with CR-free text (for the C5 witness). -/
def bSaveWit : Buffer := ⟨"f", ['h', 'i'], 80, 24, 0, 0, 0⟩

/-- File content with only LF line endings (for the C6 witness). -/
def sRoundLF : Text := "ab\ncd".toList

/-- Buffer with a zero-width viewport (and terminal-sized height 3). -/
def bAlignCex : Buffer := ⟨"f", [], 0, 3, 0, 0, 0⟩

/-- Small buffer with a 10x3 viewport, cursor at line 0 column 1. -/
def bAlignWit : Buffer := ⟨"f", ['h', 'i'], 10, 3, 0, 0, 1⟩

/-- Buffer whose cursor sits on logical line 2, column 5, above the
2-character-content line `"ab"`. -/
def bMoveUp : Buffer := ⟨"f", "xx\nab\nhello!".toList, 80, 24, 0, 0, 11⟩

/-- Buffer whose first line holds two 2-byte characters before its newline. -/
def bEndCex : Buffer := ⟨"f", ['é', 'é', '\n', 'z'], 80, 24, 0, 0, 0⟩

/-- ASCII buffer with the cursor on its second line (for the C8 witness). -/
def bEndWit : Buffer := ⟨"f", "ab\ncd".toList, 80, 24, 0, 0, 4⟩

/-- Buffer over the search example text, cursor at offset 0. -/
def bSearch : Buffer := ⟨"f", "xxfooxxfooxx".toList, 80, 24, 0, 0, 0⟩

/-- The needle of the search example. -/
def fooNeedle : Text := ['f', 'o', 'o']

/-- One-character buffer with no occurrence of `q` (for the C9 witness). -/
def bSearchWit : Buffer := ⟨"f", ['a'], 80, 24, 0, 0, 0⟩

/-- Buffer with cursor strictly inside the text (for the C3 witness). -/
def bDirtyWit : Buffer := ⟨"f", ['a', 'b'], 80, 24, 0, 0, 1⟩

/-- Read function that fails with a non-not-found error for every path. -/
def readOther : String → ReadResult := fun _ => .failure .other

/-- Read function that succeeds with empty contents for every path. -/
def readEmpty : String → ReadResult := fun _ => .success []

/-! Lemmas shared between claims. -/

/-- The line decomposition is never empty. -/
theorem lineSegs_ne_nil (s : Text) : lineSegs s ≠ [] := by
  cases s with
  | nil => simp [lineSegs]
  | cons c rest =>
    simp only [lineSegs]
    split
    · simp
    · rcases h : lineSegs rest with _ | ⟨l, ls⟩ <;> simp [h]

/-- Unfolding `lineSegs` at a newline. -/
theorem lineSegs_cons_nl (rest : Text) :
    lineSegs ('\n' :: rest) = ['\n'] :: lineSegs rest := by
  simp [lineSegs]

/-- Unfolding `lineSegs` at a non-newline character. -/
theorem lineSegs_cons_ne (c : Char) (rest : Text) (hc : c ≠ '\n')
    (l : Text) (ls : List Text) (hL : lineSegs rest = l :: ls) :
    lineSegs (c :: rest) = (c :: l) :: ls := by
  simp [lineSegs, hc, hL]

/-- Concatenating the line decomposition gives back the text. -/
theorem flatten_lineSegs : ∀ s : Text, (lineSegs s).flatten = s
  | [] => by simp [lineSegs]
  | c :: rest => by
    by_cases hc : c = '\n'
    · subst hc
      simp [lineSegs_cons_nl, flatten_lineSegs rest]
    · rcases hL : lineSegs rest with _ | ⟨l, ls⟩
      · exact absurd hL (lineSegs_ne_nil rest)
      · have hj := flatten_lineSegs rest
        rw [hL] at hj
        rw [lineSegs_cons_ne c rest hc l ls hL]
        simp only [List.flatten_cons] at hj ⊢
        simp [hj]

/-- A line of length at most 1 is not touched by the CRLF fix. -/
theorem fix_line_short (l : Text) (h : l.length ≤ 1) : fix_line l = l := by
  unfold fix_line
  rw [if_neg]
  rintro ⟨h2, -, -⟩
  omega

/-- The first line of a nonempty text starts with the text's first char. -/
theorem lineSegs_head_getD (d : Char) (r : Text) (l : Text) (ls : List Text)
    (hL : lineSegs (d :: r) = l :: ls) : l.getD 0 ' ' = d := by
  by_cases hd : d = '\n'
  · subst hd
    rw [lineSegs_cons_nl] at hL
    injection hL with h1 _
    rw [← h1]
    rfl
  · rcases hL2 : lineSegs r with _ | ⟨l2, ls2⟩
    · exact absurd hL2 (lineSegs_ne_nil r)
    · rw [lineSegs_cons_ne d r hd l2 ls2 hL2] at hL
      injection hL with h1 _
      rw [← h1]
      rfl

/-- The CRLF fix commutes with prepending a character, provided the new
character does not itself create a trailing `"\r\n"` on a one-char line. -/
theorem fix_line_cons (c : Char) (l : Text)
    (h : ¬(c = '\r' ∧ l.getD 0 ' ' = '\n')) :
    fix_line (c :: l) = c :: fix_line l := by
  rcases l with _ | ⟨d, l1⟩
  · simp [fix_line]
  · rcases l1 with _ | ⟨e, l2⟩
    · have hcd : ¬(c = '\r' ∧ d = '\n') := fun ⟨h1, h2⟩ => h ⟨h1, by simp [h2]⟩
      simp only [fix_line, List.length_cons, List.length_nil]
      norm_num
      exact fun h1 h2 => hcd ⟨h1, h2⟩
    · simp only [fix_line, List.length_cons]
      have e1 : l2.length + 1 + 1 + 1 - 2 = l2.length + 1 := by omega
      have e2 : l2.length + 1 + 1 + 1 - 1 = l2.length + 1 + 1 := by omega
      have e3 : l2.length + 1 + 1 - 2 = l2.length := by omega
      have e4 : l2.length + 1 + 1 - 1 = l2.length + 1 := by omega
      rw [e1, e2, e3, e4]
      simp only [List.getD_cons_succ, List.take_succ_cons, List.drop_succ_cons]
      by_cases hP : (d :: e :: l2).getD l2.length ' ' = '\r' ∧
          (d :: e :: l2).getD (l2.length + 1) ' ' = '\n'
      · rw [if_pos ⟨by omega, hP.1, hP.2⟩, if_pos ⟨by omega, hP.1, hP.2⟩]
        simp
      · rw [if_neg (fun hx => hP ⟨hx.2.1, hx.2.2⟩),
            if_neg (fun hx => hP ⟨hx.2.1, hx.2.2⟩)]

/-- Unfolding `reduceCRLF` at a CRLF pair. -/
theorem reduceCRLF_pair (rest : Text) :
    reduceCRLF ('\r' :: '\n' :: rest) = '\n' :: reduceCRLF rest := rfl

/-- Unfolding `reduceCRLF` on a single character. -/
theorem reduceCRLF_single (c : Char) : reduceCRLF [c] = [c] := by
  rw [reduceCRLF.eq_def]
  split
  · rename_i heq
    exact absurd heq (by simp)
  · rename_i heq
    injection heq with h1 h2
    subst h1
    subst h2
    rfl
  · rename_i heq
    exact absurd heq (by simp)

/-- Unfolding `reduceCRLF` when the first two characters are not CRLF. -/
theorem reduceCRLF_cons2 (c d : Char) (r : Text) (h : ¬(c = '\r' ∧ d = '\n')) :
    reduceCRLF (c :: d :: r) = c :: reduceCRLF (d :: r) := by
  rw [reduceCRLF.eq_def]
  split
  · rename_i heq
    injection heq with hc heq2
    injection heq2 with hd _
    exact absurd ⟨hc, hd⟩ h
  · rename_i heq
    injection heq with h1 h2
    subst h1
    subst h2
    rfl
  · rename_i heq
    exact absurd heq (by simp)

/-- Unfolding `reduceCRLF` at a newline. -/
theorem reduceCRLF_nl (rest : Text) :
    reduceCRLF ('\n' :: rest) = '\n' :: reduceCRLF rest := by
  cases rest with
  | nil => rfl
  | cons d r => exact reduceCRLF_cons2 '\n' d r (fun ⟨h1, _⟩ => by revert h1; decide)

/-- A text without carriage returns is unchanged by `reduceCRLF`. -/
theorem reduceCRLF_no_cr : ∀ s : Text, (∀ c ∈ s, c ≠ '\r') → reduceCRLF s = s
  | [], _ => rfl
  | c :: rest, h => by
    have hc : c ≠ '\r' := h c (by simp)
    have hrec := reduceCRLF_no_cr rest (fun d hd => h d (by simp [hd]))
    cases rest with
    | nil => exact reduceCRLF_single c
    | cons d r => rw [reduceCRLF_cons2 c d r (fun ⟨h1, _⟩ => hc h1), hrec]

/-- Unfolding `normalize_crlf` at a newline. -/
theorem normalize_crlf_nl (rest : Text) :
    normalize_crlf ('\n' :: rest) = '\n' :: normalize_crlf rest := by
  have hfix : fix_line ['\n'] = ['\n'] := fix_line_short _ (by simp)
  simp [normalize_crlf, lineSegs_cons_nl, hfix]

/-- Unfolding `normalize_crlf` at a CRLF pair: the fix removes the `'\r'`. -/
theorem normalize_crlf_pair (rest : Text) :
    normalize_crlf ('\r' :: '\n' :: rest) = '\n' :: normalize_crlf rest := by
  have h1 : lineSegs ('\r' :: '\n' :: rest) = ['\r', '\n'] :: lineSegs rest :=
    lineSegs_cons_ne '\r' _ (by decide) ['\n'] (lineSegs rest)
      (lineSegs_cons_nl rest)
  have hfix : fix_line ['\r', '\n'] = ['\n'] := by decide
  simp [normalize_crlf, h1, hfix]

/-- Unfolding `normalize_crlf` on a single non-newline character. -/
theorem normalize_crlf_single (c : Char) (hc : c ≠ '\n') :
    normalize_crlf [c] = [c] := by
  have h1 : lineSegs [c] = [[c]] := by simp [lineSegs, hc]
  have hfix : fix_line [c] = [c] := fix_line_short _ (by simp)
  simp [normalize_crlf, h1, hfix]

/-- Unfolding `normalize_crlf` when the first two characters are not CRLF. -/
theorem normalize_crlf_cons (c d : Char) (r : Text) (hc : c ≠ '\n')
    (h : ¬(c = '\r' ∧ d = '\n')) :
    normalize_crlf (c :: d :: r) = c :: normalize_crlf (d :: r) := by
  rcases hL : lineSegs (d :: r) with _ | ⟨l, ls⟩
  · exact absurd hL (lineSegs_ne_nil _)
  · have hhead := lineSegs_head_getD d r l ls hL
    have hfc : fix_line (c :: l) = c :: fix_line l := by
      refine fix_line_cons c l ?_
      rw [hhead]
      exact h
    rw [normalize_crlf, lineSegs_cons_ne c _ hc l ls hL]
    simp only [List.map_cons, List.flatten_cons, hfc]
    rw [normalize_crlf, hL]
    simp [List.map_cons, List.flatten_cons]

/-- The CRLF-normalization loop of `from_path` performs exactly the spec's
transformation: every `"\r\n"` is reduced to `"\n"`, and nothing else
changes.  (A `'\r'` immediately before a `'\n'` is always the second-to-last
character of its line, and conversely.) -/
theorem normalize_crlf_eq_reduceCRLF (s : Text) :
    normalize_crlf s = reduceCRLF s := by
  have key : ∀ (n : Nat) (t : Text), t.length ≤ n →
      normalize_crlf t = reduceCRLF t := by
    intro n
    induction n with
    | zero =>
      rintro (_ | ⟨c, rest⟩) hs
      · rfl
      · simp at hs
    | succ n ih =>
      rintro (_ | ⟨c, rest⟩) hs
      · rfl
      · by_cases hc : c = '\n'
        · subst hc
          have hr : rest.length ≤ n := by simpa using hs
          rw [normalize_crlf_nl, reduceCRLF_nl, ih rest hr]
        · rcases rest with _ | ⟨d, r⟩
          · rw [normalize_crlf_single c hc, reduceCRLF_single]
          · have hr : (d :: r).length ≤ n := by simpa using hs
            by_cases hcd : c = '\r' ∧ d = '\n'
            · obtain ⟨h1, h2⟩ := hcd
              subst h1
              subst h2
              have hr2 : r.length ≤ n := by simp at hr; omega
              rw [normalize_crlf_pair, reduceCRLF_pair, ih r hr2]
            · rw [normalize_crlf_cons c d r hc hcd,
                  reduceCRLF_cons2 c d r hcd, ih (d :: r) hr]
  exact key s.length s le_rfl

/-! Claim theorems. -/

/-- C10: for every buffer state and terminal size, `align_cursor` modifies at
most `visual_origin_row` and `visual_origin_col`; the text, `cursor_idx`,
`visual_width`, `visual_height` and `file_path` are unchanged. -/
theorem align_cursor_frame (rows : Nat) (b : Buffer) :
    (Editor.align_cursor rows b).text = b.text ∧
    (Editor.align_cursor rows b).cursor_idx = b.cursor_idx ∧
    (Editor.align_cursor rows b).visual_width = b.visual_width ∧
    (Editor.align_cursor rows b).visual_height = b.visual_height ∧
    (Editor.align_cursor rows b).file_path = b.file_path := by
  simp only [Editor.align_cursor]
  split_ifs <;> simp

/-- C1 (amended): for every buffer whose `visual_height` equals the terminal
row count, if the terminal has at least 3 rows and the viewport has at least
1 column, then after `align_cursor` the cursor's logical line lies in
`[visual_origin_row, visual_origin_row + (visual_height - 2))` and its
logical column lies in `[visual_origin_col, visual_origin_col +
visual_width)`. -/
theorem align_cursor_keeps_cursor_in_viewport (rows : Nat) (b : Buffer)
    (hrows : 3 ≤ rows) (hh : b.visual_height = rows) (hw : 1 ≤ b.visual_width) :
    (Editor.align_cursor rows b).visual_origin_row ≤
        b.get_logical_cursor_line ∧
    b.get_logical_cursor_line <
        (Editor.align_cursor rows b).visual_origin_row +
          ((Editor.align_cursor rows b).visual_height - 2) ∧
    (Editor.align_cursor rows b).visual_origin_col ≤
        b.get_logical_cursor_col ∧
    b.get_logical_cursor_col <
        (Editor.align_cursor rows b).visual_origin_col +
          (Editor.align_cursor rows b).visual_width := by
  have hvh : 3 ≤ b.visual_height := by omega
  simp only [Editor.align_cursor, Buffer.get_logical_cursor_line,
    Buffer.get_logical_cursor_col]
  split_ifs <;> simp_all <;> omega

/-- C1 counterexample: a buffer state with `visual_width = 0` and a 3-row
terminal.  After `align_cursor`, the cursor's logical column (0) does not lie
in the empty interval `[visual_origin_col, visual_origin_col + visual_width)`
(the right-scroll step has set `visual_origin_col` to `col - width + 1 = 1`),
so the claim's invariant fails as stated for this terminal size. -/
theorem align_cursor_zero_width_cex :
    ¬ ((Editor.align_cursor 3 bAlignCex).visual_origin_col ≤
          bAlignCex.get_logical_cursor_col ∧
       bAlignCex.get_logical_cursor_col <
          (Editor.align_cursor 3 bAlignCex).visual_origin_col +
            (Editor.align_cursor 3 bAlignCex).visual_width) := by
  decide

/-- Witness for C1: the amended invariant holds at a concrete buffer. -/
theorem align_cursor_keeps_cursor_in_viewport_witness :
    (Editor.align_cursor 3 bAlignWit).visual_origin_row ≤
        bAlignWit.get_logical_cursor_line ∧
    bAlignWit.get_logical_cursor_line <
        (Editor.align_cursor 3 bAlignWit).visual_origin_row +
          ((Editor.align_cursor 3 bAlignWit).visual_height - 2) ∧
    (Editor.align_cursor 3 bAlignWit).visual_origin_col ≤
        bAlignWit.get_logical_cursor_col ∧
    bAlignWit.get_logical_cursor_col <
        (Editor.align_cursor 3 bAlignWit).visual_origin_col +
          (Editor.align_cursor 3 bAlignWit).visual_width :=
  align_cursor_keeps_cursor_in_viewport 3 bAlignWit (by decide) rfl (by decide)

/-- C2: evaluation of the code at the failing input.  The cursor starts on
logical line 2, column 5; the target line above has 2 content characters
(its rope length 3 includes the trailing newline).  The claim requires the
cursor to land at column 2 of line 1, i.e. offset 5; `move_up` instead sets
the cursor to offset 6 — the start of line 2 — because it clamps with
`min(next_line_len, col)` where `next_line_len` counts the terminator, so the
cursor does not move up at all. -/
theorem move_up_clamp_includes_terminator_bug :
    bMoveUp.get_logical_cursor_pos = (2, 5) ∧
    (TextEditor.get_line bMoveUp.text 1).length = 3 ∧
    bMoveUp.move_up.cursor_idx = 6 ∧
    char_to_line bMoveUp.text bMoveUp.move_up.cursor_idx = 2 ∧
    bMoveUp.move_up.cursor_idx ≠ 5 := by
  decide

/-- C3: every edit operation (character, newline and tab insert always;
backspace and forward-delete when they remove a character) sets the dirty
flag to true, and Ctrl+D exit prompts for confirmation exactly when the flag
is true, with only an answer of y, Y or yes permitting the quit. -/
theorem edits_set_dirty_and_exit_needs_confirmation :
    (∀ (d : Bool) (b : Buffer) (c : Char) (ct : Bool),
        dirty_after_key d b ⟨.char c, ct, true⟩ = true ∧
        dirty_after_key d b ⟨.enter, ct, true⟩ = true ∧
        dirty_after_key d b ⟨.tab, ct, true⟩ = true ∧
        (b.cursor_idx ≠ 0 → dirty_after_key d b ⟨.backspace, ct, true⟩ = true) ∧
        (b.cursor_idx ≠ b.text.length →
          dirty_after_key d b ⟨.delete, ct, true⟩ = true)) ∧
    (∀ (d : Bool) (resp : Option String),
        (Editor.attempt_exit d resp).1 = d ∧
        ((Editor.attempt_exit d resp).2 = true ↔
          d = false ∨ resp = some "y" ∨ resp = some "Y" ∨ resp = some "yes")) := by
  constructor
  · intro d b c ct
    refine ⟨by simp [dirty_after_key], by simp [dirty_after_key],
      by simp [dirty_after_key], ?_, ?_⟩ <;>
      intro h <;> simp [dirty_after_key, h]
  · intro d resp
    cases d <;> rcases resp with _ | s <;>
      simp [Editor.attempt_exit, or_assoc]

/-- Witness for C3: backspace with the cursor away from offset 0 marks a
clean buffer dirty. -/
theorem edits_set_dirty_and_exit_needs_confirmation_witness :
    dirty_after_key false bDirtyWit ⟨.backspace, false, true⟩ = true :=
  ((edits_set_dirty_and_exit_needs_confirmation.1 false bDirtyWit 'a'
      false).2.2.2.1) (by decide)

/-- C4: `from_path` on an absent file yields an empty document (cursor 0,
origin (0,0)) with no error, and a read failure other than not-found makes
startup exit with code 1 before any terminal session is entered. -/
theorem from_path_absent_empty_and_read_error_aborts :
    (∀ (cols rows : Nat) (path : String),
        Buffer.from_path cols rows path (.failure .notFound) =
          .ok ⟨path, [], cols, rows, 0, 0, 0⟩) ∧
    (∀ (args : List String) (readFile : String → ReadResult) (k : IOErrorKind),
        k ≠ .notFound → args.length = 2 →
        readFile (args.getD 1 "") = .failure k →
        mainStartup args readFile = .readErrorExit 1 ∧
        ∀ (fn : String) (c : Text), mainStartup args readFile ≠ .session fn c) := by
  constructor
  · intro cols rows path
    rfl
  · intro args readFile k _ hlen hread
    have h2 : ¬ args.length ≠ 2 := by omega
    unfold mainStartup
    rw [if_neg h2, hread]
    exact ⟨rfl, fun _ _ h => StartupOutcome.noConfusion h⟩

/-- Witness for C4: a concrete two-argument invocation whose read fails with
an error other than not-found exits with code 1 and opens no session. -/
theorem from_path_absent_empty_and_read_error_aborts_witness :
    mainStartup ["editor", "a"] readOther = .readErrorExit 1 ∧
    ∀ (fn : String) (c : Text), mainStartup ["editor", "a"] readOther ≠ .session fn c :=
  (from_path_absent_empty_and_read_error_aborts.2 ["editor", "a"] readOther
    .other (by decide) rfl rfl)

/-- C7: evaluation of the code at the failing input.  The claim says a
missing filename argument opens an empty, unnamed buffer; `main` instead
treats anything but exactly one positional argument — including none — as a
usage error with exit code 1 and no terminal session (its own usage string
`editor [filename]` marks the filename as optional, and the editor supports
unnamed buffers in `save_buffer`, so the zero-argument rejection contradicts
the program's own documentation).  With one argument a session is opened. -/
theorem missing_filename_is_usage_error :
    mainStartup ["editor"] readEmpty = .usageExit 1 ∧
    mainStartup ["editor", "a", "b"] readEmpty = .usageExit 1 ∧
    mainStartup ["editor", "a"] readEmpty = .session "a" [] :=
  ⟨rfl, rfl, rfl⟩

/-- A scalar whose code is not 13 never contributes the byte 0x0D to the
UTF-8 encoding: continuation bytes are at least 0x80 and multi-byte lead
bytes at least 0xC0, so the byte 13 can only encode the CR scalar itself. -/
theorem utf8Bytes_no_cr (c : Char) (h : c.toNat ≠ 13) :
    (13 : Nat) ∉ utf8Bytes c := by
  simp only [utf8Bytes]
  split_ifs <;> simp <;> omega

/-- C5: evaluation of the save path.  `save_file` writes exactly the UTF-8
bytes of the buffer text — no CRLF re-insertion: a CR-free text yields a
byte stream without 0x0D.  On an unwritable target the source calls
`.unwrap()` on the `File::create` error, i.e. it panics: no recoverable
outcome is produced (modelled as `none`), so no footer report happens and no
flag could be cleared (the Buffer in src has no dirty field at all). -/
theorem save_file_verbatim_and_unwritable_panics :
    (∀ b : Buffer, Buffer.save_file b true = some (utf8Encode b.text)) ∧
    (∀ b : Buffer, (∀ c ∈ b.text, c.toNat ≠ 13) →
        (13 : Nat) ∉ utf8Encode b.text) ∧
    (∀ b : Buffer, Buffer.save_file b false = none) := by
  refine ⟨fun b => rfl, ?_, fun b => rfl⟩
  intro b h hmem
  rw [utf8Encode, List.mem_flatten] at hmem
  obtain ⟨bs, hbs, hin⟩ := hmem
  rw [List.mem_map] at hbs
  obtain ⟨c, hc, rfl⟩ := hbs
  exact utf8Bytes_no_cr c (h c hc) hin

/-- Witness for C5: a concrete CR-free buffer saves to a byte stream with no
0x0D byte. -/
theorem save_file_verbatim_and_unwritable_panics_witness :
    (13 : Nat) ∉ utf8Encode bSaveWit.text :=
  save_file_verbatim_and_unwritable_panics.2.1 bSaveWit (by decide)

/-- C6: the text stored at load time is the file content with every CRLF
reduced to LF (each line whose last two characters are CR LF loses the CR);
hence loading a file with only LF endings and saving immediately reproduces
the original bytes exactly, and loading any file and saving immediately
writes the content with every CRLF reduced to LF. -/
theorem load_save_round_trip :
    (∀ (cols rows : Nat) (p : String) (s : Text),
        (from_path_contents cols rows p s).text = reduceCRLF s) ∧
    (∀ (cols rows : Nat) (p : String) (s : Text), (∀ c ∈ s, c ≠ '\r') →
        Buffer.save_file (from_path_contents cols rows p s) true =
          some (utf8Encode s)) ∧
    (∀ (cols rows : Nat) (p : String) (s : Text),
        Buffer.save_file (from_path_contents cols rows p s) true =
          some (utf8Encode (reduceCRLF s))) := by
  have htext : ∀ (cols rows : Nat) (p : String) (s : Text),
      (from_path_contents cols rows p s).text = reduceCRLF s :=
    fun _ _ _ s => normalize_crlf_eq_reduceCRLF s
  refine ⟨htext, ?_, ?_⟩
  · intro cols rows p s hcr
    show some (utf8Encode (from_path_contents cols rows p s).text) = _
    rw [htext, reduceCRLF_no_cr s hcr]
  · intro cols rows p s
    show some (utf8Encode (from_path_contents cols rows p s).text) = _
    rw [htext]

/-- Witness for C6: a concrete LF-only file round-trips byte-exactly. -/
theorem load_save_round_trip_witness :
    Buffer.save_file (from_path_contents 80 24 "f" sRoundLF) true =
      some (utf8Encode sRoundLF) :=
  load_save_round_trip.2.1 80 24 "f" sRoundLF (by decide)

/-- Every character of a line belongs to the text. -/
theorem mem_get_line {t : Text} {i : Nat} {c : Char}
    (h : c ∈ TextEditor.get_line t i) : c ∈ t := by
  rw [get_line] at h
  rcases lt_or_ge i (lineSegs t).length with hi | hi
  · rw [List.getD_eq_getElem _ _ hi] at h
    have hseg : (lineSegs t)[i] ∈ lineSegs t := List.getElem_mem hi
    have hc : c ∈ (lineSegs t).flatten := List.mem_flatten.mpr ⟨_, hseg, h⟩
    rwa [flatten_lineSegs] at hc
  · rw [List.getD_eq_default _ _ hi] at h
    simp at h

/-- For ASCII text, Rust byte length equals char count. -/
theorem utf8Len_ascii : ∀ l : Text, (∀ c ∈ l, c.toNat < 128) →
    utf8Len l = l.length
  | [], _ => rfl
  | c :: rest, h => by
    have hc : c.toNat < 128 := h c (by simp)
    have hr := utf8Len_ascii rest (fun d hd => h d (by simp [hd]))
    unfold utf8Len at hr ⊢
    simp only [List.map_cons, List.sum_cons, List.length_cons, charUtf8Size,
      if_pos hc, hr]
    omega

/-- C8 counterexample: on the buffer `"éé\nz"` with the cursor at offset 0
(line 0, whose chars are `é`, `é`, `'\n'`), the End key without control
lands the cursor at offset 4 — on logical line 1 — because the branch
measures the line with `String::len()` (5 UTF-8 bytes) instead of chars.
The claim would put the cursor at the line's last content character
(offset 1; or offset 2 just before the terminator on an insertion-point
reading), in any case within logical line 0. -/
theorem end_key_multibyte_leaves_line_cex :
    bEndCex.get_logical_cursor_line = 0 ∧
    (TextEditor.get_line bEndCex.text 0).length = 3 ∧
    (bEndCex.handle_key_event ⟨.endKey, false, true⟩).cursor_idx = 4 ∧
    char_to_line bEndCex.text
      (bEndCex.handle_key_event ⟨.endKey, false, true⟩).cursor_idx = 1 := by
  decide

/-- C8 (amended): for every buffer of ASCII characters, End without control
sets the cursor to `line_start + (line_length - min line_length 1)` where
`line_length` counts the trailing terminator — i.e. onto the final `'\n'` of
a terminated line (just after the last content character), onto the last
character of the final line, and to the line start for an empty line; Home
without control sets the cursor to the line start.  (For non-ASCII lines the
byte-based length can push the cursor past the line, as the counterexample
shows.) -/
theorem end_home_keys_ascii (b : Buffer)
    (h : ∀ c ∈ b.text, c.toNat < 128) :
    (b.handle_key_event ⟨.endKey, false, true⟩).cursor_idx =
      line_to_char b.text b.get_logical_cursor_line +
        ((TextEditor.get_line b.text b.get_logical_cursor_line).length -
          min (TextEditor.get_line b.text b.get_logical_cursor_line).length 1) ∧
    (b.handle_key_event ⟨.home, false, true⟩).cursor_idx =
      line_to_char b.text b.get_logical_cursor_line := by
  have hascii : ∀ c ∈ TextEditor.get_line b.text b.get_logical_cursor_line,
      c.toNat < 128 := fun c hc => h c (mem_get_line hc)
  have hlen := utf8Len_ascii _ hascii
  refine ⟨?_, rfl⟩
  show line_to_char b.text b.get_logical_cursor_line +
      utf8Len (TextEditor.get_line b.text b.get_logical_cursor_line) -
      min (utf8Len (TextEditor.get_line b.text b.get_logical_cursor_line)) 1 = _
  rw [hlen]
  omega

/-- Witness for C8: the amended End/Home behaviour at a concrete ASCII
buffer. -/
theorem end_home_keys_ascii_witness :
    (bEndWit.handle_key_event ⟨.endKey, false, true⟩).cursor_idx =
      line_to_char bEndWit.text bEndWit.get_logical_cursor_line +
        ((TextEditor.get_line bEndWit.text bEndWit.get_logical_cursor_line).length -
          min (TextEditor.get_line bEndWit.text
            bEndWit.get_logical_cursor_line).length 1) ∧
    (bEndWit.handle_key_event ⟨.home, false, true⟩).cursor_idx =
      line_to_char bEndWit.text bEndWit.get_logical_cursor_line :=
  end_home_keys_ascii bEndWit (by decide)

/-- A successful scan returns the least matching offset at or after `i`. -/
theorem scan_from_some (t needle : Text) :
    ∀ (fuel i k : Nat), scan_from t needle i fuel = some k →
      i ≤ k ∧ k < i + fuel ∧ matchesAt t needle k = true ∧
        ∀ j, i ≤ j → j < k → matchesAt t needle j = false := by
  intro fuel
  induction fuel with
  | zero =>
    intro i k h
    exact absurd h (by simp [scan_from])
  | succ n ih =>
    intro i k h
    simp only [scan_from] at h
    by_cases hm : matchesAt t needle i = true
    · rw [if_pos hm] at h
      injection h with h
      subst h
      exact ⟨le_rfl, by omega, hm, fun j h1 h2 => by omega⟩
    · rw [if_neg hm] at h
      obtain ⟨h1, h2, h3, h4⟩ := ih (i + 1) k h
      refine ⟨by omega, by omega, h3, ?_⟩
      intro j hj1 hj2
      rcases eq_or_lt_of_le hj1 with rfl | hlt
      · simpa using hm
      · exact h4 j hlt hj2

/-- A failed scan means no offset in its fuel range matches. -/
theorem scan_from_none (t needle : Text) :
    ∀ (fuel i : Nat), scan_from t needle i fuel = none →
      ∀ j, i ≤ j → j < i + fuel → matchesAt t needle j = false := by
  intro fuel
  induction fuel with
  | zero =>
    intro i _ j _ h2
    omega
  | succ n ih =>
    intro i h j h1 h2
    simp only [scan_from] at h
    by_cases hm : matchesAt t needle i = true
    · rw [if_pos hm] at h
      exact absurd h (by simp)
    · rw [if_neg hm] at h
      rcases eq_or_lt_of_le h1 with rfl | hlt
      · simpa using hm
      · exact ih (i + 1) h j hlt (by omega)

/-- C9: `go_to_next_instance` scans forward from the character after the
cursor for the first exact occurrence of the needle; on success it moves the
cursor to the start of that (least) match, leaving the text unchanged, and
returns found; on failure the whole buffer is unchanged and it returns
not-found.  On `"xxfooxxfooxx"` with cursor 0 searching `"foo"`: the first
call lands at offset 2, the second at offset 7, and the third returns
not-found leaving the cursor at 7. -/
theorem go_to_next_instance_correct :
    (∀ (b : Buffer) (needle : Text),
        ((b.go_to_next_instance needle).2 = true ↔
          ∃ i, b.cursor_idx + 1 ≤ i ∧ i ≤ b.text.length ∧
            matchesAt b.text needle i = true) ∧
        ((b.go_to_next_instance needle).2 = false →
          (b.go_to_next_instance needle).1 = b) ∧
        ((b.go_to_next_instance needle).2 = true →
          (b.go_to_next_instance needle).1.text = b.text ∧
          b.cursor_idx + 1 ≤ (b.go_to_next_instance needle).1.cursor_idx ∧
          matchesAt b.text needle
            (b.go_to_next_instance needle).1.cursor_idx = true ∧
          ∀ j, b.cursor_idx + 1 ≤ j → matchesAt b.text needle j = true →
            (b.go_to_next_instance needle).1.cursor_idx ≤ j)) ∧
    ((bSearch.go_to_next_instance fooNeedle).1.cursor_idx = 2 ∧
     (bSearch.go_to_next_instance fooNeedle).2 = true ∧
     ((bSearch.go_to_next_instance fooNeedle).1.go_to_next_instance
        fooNeedle).1.cursor_idx = 7 ∧
     ((bSearch.go_to_next_instance fooNeedle).1.go_to_next_instance
        fooNeedle).2 = true ∧
     (((bSearch.go_to_next_instance fooNeedle).1.go_to_next_instance
        fooNeedle).1.go_to_next_instance fooNeedle).2 = false ∧
     (((bSearch.go_to_next_instance fooNeedle).1.go_to_next_instance
        fooNeedle).1.go_to_next_instance fooNeedle).1.cursor_idx = 7) := by
  constructor
  · intro b needle
    rcases hF : find_from b.text needle (b.cursor_idx + 1) with _ | k
    · have hgo : b.go_to_next_instance needle = (b, false) := by
        rw [Buffer.go_to_next_instance, hF]
      rw [find_from] at hF
      rw [hgo]
      refine ⟨?_, fun _ => rfl, fun h => by simp at h⟩
      constructor
      · intro h
        exact absurd h (by simp)
      · rintro ⟨i, h1, h2, h3⟩
        have hfalse := scan_from_none b.text needle _ _ hF i h1 (by omega)
        rw [hfalse] at h3
        exact absurd h3 (by simp)
    · have hgo : b.go_to_next_instance needle =
          ({ b with cursor_idx := k }, true) := by
        rw [Buffer.go_to_next_instance, hF]
      rw [find_from] at hF
      obtain ⟨h1, h2, h3, h4⟩ := scan_from_some b.text needle _ _ _ hF
      rw [hgo]
      refine ⟨⟨fun _ => ⟨k, h1, by omega, h3⟩, fun _ => rfl⟩,
        fun h => by simp at h, fun _ => ⟨rfl, h1, h3, ?_⟩⟩
      intro j hj1 hj2
      by_contra hlt
      push_neg at hlt
      rw [h4 j hj1 hlt] at hj2
      exact absurd hj2 (by simp)
  · decide

/-- Witness for C9: a failed search leaves the concrete buffer unchanged. -/
theorem go_to_next_instance_correct_witness :
    (bSearchWit.go_to_next_instance ['q']).1 = bSearchWit :=
  ((go_to_next_instance_correct.1 bSearchWit ['q']).2.1) (by decide)

end TextEditor
